import Mathlib

/-!
Verification of the PQC benchmarking script (scripts/benchmark_pqc.py).

The script is a sequential driver around an external cryptographic library
(the oqs bindings).  We model the library as an environment of pure
response functions: availability flags per algorithm name, per-iteration
operation results (the iteration index stands for the evolving internal
randomness of the library handle), and a monotone-free clock stream
standing for successive calls to time.perf_counter (the k-th call returns
clock k, in seconds, modelled as a rational).  Library operations may fail
with an error code (an arbitrary exception from the library); the
constructor alone may signal that the mechanism is not enabled, matching
the bindings where MechanismNotEnabledError is raised at handle creation.

Durations are rationals (Python floats are abstracted to exact rational
arithmetic; statistics.mean computes the exact mean before converting, so
this matches the claims considered here).  Byte strings are lists of
naturals.  Console printing is abstracted away except for the summary
table, whose lines are modelled by the record fields they display;
filesystem side effects (os.makedirs, the CSV write) are modelled as an
explicit effect trace.
-/

/-- Byte strings (Python bytes) as lists of naturals. -/
abbrev Bytes := List Nat

/-- Category of a benchmark target. -/
inductive AlgCat where
  | kem
  | sig
deriving DecidableEq, Repr

/-- A cell value of a result record: Python str, int, or float
(floats modelled as rationals). -/
inductive Val where
  | s (v : String)
  | n (v : Nat)
  | q (v : ℚ)
deriving DecidableEq, Repr

/-- Python exceptions relevant to the script: the MechanismNotEnabledError
raised by the oqs handle constructors, AssertionError from the two sanity
asserts, and any other library error (carrying an opaque code; this also
covers statistics.StatisticsError from mean on an empty list). -/
inductive PyError where
  | mechanismNotEnabled (alg : String)
  | assertionError
  | libError (code : Nat)
deriving DecidableEq, Repr

/-- The fields of kem.details read by the script. -/
structure KemDetails where
  length_public_key : Nat
  length_secret_key : Nat
  length_ciphertext : Nat
deriving DecidableEq, Repr

/-- The fields of sig.details read by the script. -/
structure SigDetails where
  length_public_key : Nat
  length_secret_key : Nat
  length_signature : Nat
deriving DecidableEq, Repr

/-- The external oqs library modelled as pure response functions.  The Nat
argument of each operation is the iteration index of the benchmark loop,
standing for the internal state (randomness) of the handle at that point.
clock is the stream of perf_counter readings, indexed by call count. -/
structure OqsEnv where
  kemEnabled : String → Bool
  sigEnabled : String → Bool
  kemDetails : String → KemDetails
  sigDetails : String → SigDetails
  kemGenerateKeypair : String → Nat → Except Nat Bytes
  kemExportSecretKey : String → Nat → Except Nat Bytes
  kemEncapSecret : String → Nat → Bytes → Except Nat (Bytes × Bytes)
  kemDecapSecret : String → Nat → Bytes → Bytes → Except Nat Bytes
  sigGenerateKeypair : String → Nat → Except Nat Bytes
  sigExportSecretKey : String → Nat → Except Nat Bytes
  sigSign : String → Nat → Bytes → Bytes → Except Nat Bytes
  sigVerify : String → Nat → Bytes → Bytes → Bytes → Except Nat Bool
  clock : Nat → ℚ

/-- Handle lifecycle events of the with blocks. -/
inductive Event where
  | acquireKem (name : String)
  | releaseKem (name : String)
  | acquireSig (name : String)
  | releaseSig (name : String)
deriving DecidableEq, Repr

/-- Configuration constant: iterations per algorithm. -/
def NUM_ITERATIONS : Nat := 100

/-- Configuration constant: the KEM algorithm list. -/
def KEM_ALGORITHMS : List String := ["Kyber768"]

/-- Configuration constant: the signature algorithm list. -/
def SIGNATURE_ALGORITHMS : List String :=
  ["Dilithium3", "Falcon-512", "SPHINCS+-SHA2-128f-simple"]

/-- Configuration constant: output directory. -/
def RESULTS_DIR : String := "results/tables"

/-- Configuration constant: output CSV path (os.path.join of the two parts). -/
def OUTPUT_CSV_FILE : String := "results/tables/pqc_benchmark_results.csv"

/-- The fixed message signed in benchmark_sig: the bytes of
b"This is a sample message for signing.". -/
def message : Bytes :=
  [84, 104, 105, 115, 32, 105, 115, 32, 97, 32, 115, 97, 109, 112, 108, 101,
   32, 109, 101, 115, 115, 97, 103, 101, 32, 102, 111, 114, 32, 115, 105, 103,
   110, 105, 110, 103, 46]

/-- A result record: a Python dict modelled as an insertion-ordered
association list. -/
abbrev ResultRecord := List (String × Val)

/-- Dictionary lookup on a result record (Python dict indexing). -/
def getField (r : ResultRecord) (k : String) : Option Val :=
  match r with
  | [] => none
  | (k2, v) :: r2 => if k2 = k then some v else getField r2 k

/-- statistics.mean: exact arithmetic mean; raises StatisticsError on an
empty list (modelled as a library error code). -/
def stat_mean (xs : List ℚ) : Except PyError ℚ :=
  if xs.isEmpty then .error (.libError 1)
  else .ok (xs.sum / (xs.length : ℚ))

/-- Mutable state of the KEM benchmark loop: the perf_counter call count
and the three accumulated timing lists. -/
structure KemLoopState where
  clk : Nat
  keygen_times : List ℚ
  encaps_times : List ℚ
  decaps_times : List ℚ
deriving DecidableEq, Repr

/-- One iteration of the benchmark_kem loop: keygen (generate_keypair then
export_secret_key) timed between perf_counter calls clk and clk+1,
encapsulation between clk+2 and clk+3, decapsulation between clk+4 and
clk+5, each duration converted to milliseconds and appended; then the
assert comparing the two shared secrets. -/
def kemIteration (env : OqsEnv) (kem_name : String) (i : Nat) (st : KemLoopState) :
    Except PyError KemLoopState :=
  let t0 := env.clock st.clk
  match env.kemGenerateKeypair kem_name i with
  | .error e => .error (.libError e)
  | .ok public_key =>
    match env.kemExportSecretKey kem_name i with
    | .error e => .error (.libError e)
    | .ok secret_key =>
      let t1 := env.clock (st.clk + 1)
      let keygen_times := st.keygen_times ++ [(t1 - t0) * 1000]
      let t2 := env.clock (st.clk + 2)
      match env.kemEncapSecret kem_name i public_key with
      | .error e => .error (.libError e)
      | .ok (ciphertext, shared_secret_client) =>
        let t3 := env.clock (st.clk + 3)
        let encaps_times := st.encaps_times ++ [(t3 - t2) * 1000]
        let t4 := env.clock (st.clk + 4)
        match env.kemDecapSecret kem_name i secret_key ciphertext with
        | .error e => .error (.libError e)
        | .ok shared_secret_server =>
          let t5 := env.clock (st.clk + 5)
          let decaps_times := st.decaps_times ++ [(t5 - t4) * 1000]
          if shared_secret_client = shared_secret_server then
            .ok ⟨st.clk + 6, keygen_times, encaps_times, decaps_times⟩
          else
            .error .assertionError

/-- The benchmark_kem for loop: run k iterations starting at iteration
index i, aborting on the first raised exception. -/
def runKemIters (env : OqsEnv) (kem_name : String) :
    Nat → Nat → KemLoopState → Except PyError KemLoopState
  | 0, _, st => .ok st
  | k + 1, i, st =>
    match kemIteration env kem_name i st with
    | .error e => .error e
    | .ok st2 => runKemIters env kem_name k (i + 1) st2

/-- benchmark_kem: acquire the handle (raising MechanismNotEnabledError
when the algorithm is not enabled, before any event), run the loop, build
the result dict from details and the three means.  Returns the result (or
the escaping exception), the handle lifecycle events of the with block
(the handle is released on every exit path), and the final perf_counter
call count. -/
def benchmark_kem (env : OqsEnv) (kem_name : String) (num_iterations : Nat)
    (clk0 : Nat) : Except PyError ResultRecord × List Event × Nat :=
  if env.kemEnabled kem_name then
    let details := env.kemDetails kem_name
    match runKemIters env kem_name num_iterations 0 ⟨clk0, [], [], []⟩ with
    | .error e => (.error e, [Event.acquireKem kem_name, Event.releaseKem kem_name], clk0)
    | .ok st =>
      match stat_mean st.keygen_times with
      | .error e => (.error e, [Event.acquireKem kem_name, Event.releaseKem kem_name], st.clk)
      | .ok mean_keygen =>
        match stat_mean st.encaps_times with
        | .error e => (.error e, [Event.acquireKem kem_name, Event.releaseKem kem_name], st.clk)
        | .ok mean_encaps =>
          match stat_mean st.decaps_times with
          | .error e => (.error e, [Event.acquireKem kem_name, Event.releaseKem kem_name], st.clk)
          | .ok mean_decaps =>
            (.ok [("Algorithm", Val.s kem_name),
                  ("Type", Val.s "KEM"),
                  ("Public Key (bytes)", Val.n details.length_public_key),
                  ("Secret Key (bytes)", Val.n details.length_secret_key),
                  ("Ciphertext (bytes)", Val.n details.length_ciphertext),
                  ("Signature (bytes)", Val.s "N/A"),
                  ("Keygen (ms)", Val.q mean_keygen),
                  ("Encaps/Sign (ms)", Val.q mean_encaps),
                  ("Decaps/Verify (ms)", Val.q mean_decaps)],
             [Event.acquireKem kem_name, Event.releaseKem kem_name], st.clk)
  else
    (.error (.mechanismNotEnabled kem_name), [], clk0)

/-- Mutable state of the signature benchmark loop. -/
structure SigLoopState where
  clk : Nat
  keygen_times : List ℚ
  sign_times : List ℚ
  verify_times : List ℚ
deriving DecidableEq, Repr

/-- One iteration of the benchmark_sig loop: keygen timed between
perf_counter calls clk and clk+1, signing of the fixed message between
clk+2 and clk+3, verification between clk+4 and clk+5; then the assert on
the verification result. -/
def sigIteration (env : OqsEnv) (sig_name : String) (i : Nat) (st : SigLoopState) :
    Except PyError SigLoopState :=
  let t0 := env.clock st.clk
  match env.sigGenerateKeypair sig_name i with
  | .error e => .error (.libError e)
  | .ok public_key =>
    match env.sigExportSecretKey sig_name i with
    | .error e => .error (.libError e)
    | .ok secret_key =>
      let t1 := env.clock (st.clk + 1)
      let keygen_times := st.keygen_times ++ [(t1 - t0) * 1000]
      let t2 := env.clock (st.clk + 2)
      match env.sigSign sig_name i message secret_key with
      | .error e => .error (.libError e)
      | .ok signature =>
        let t3 := env.clock (st.clk + 3)
        let sign_times := st.sign_times ++ [(t3 - t2) * 1000]
        let t4 := env.clock (st.clk + 4)
        match env.sigVerify sig_name i message signature public_key with
        | .error e => .error (.libError e)
        | .ok is_valid =>
          let t5 := env.clock (st.clk + 5)
          let verify_times := st.verify_times ++ [(t5 - t4) * 1000]
          if is_valid then
            .ok ⟨st.clk + 6, keygen_times, sign_times, verify_times⟩
          else
            .error .assertionError

/-- The benchmark_sig for loop. -/
def runSigIters (env : OqsEnv) (sig_name : String) :
    Nat → Nat → SigLoopState → Except PyError SigLoopState
  | 0, _, st => .ok st
  | k + 1, i, st =>
    match sigIteration env sig_name i st with
    | .error e => .error e
    | .ok st2 => runSigIters env sig_name k (i + 1) st2

/-- benchmark_sig: acquire the handle, run the loop, build the result dict
from details and the three means.  Same output convention as
benchmark_kem. -/
def benchmark_sig (env : OqsEnv) (sig_name : String) (num_iterations : Nat)
    (clk0 : Nat) : Except PyError ResultRecord × List Event × Nat :=
  if env.sigEnabled sig_name then
    let details := env.sigDetails sig_name
    match runSigIters env sig_name num_iterations 0 ⟨clk0, [], [], []⟩ with
    | .error e => (.error e, [Event.acquireSig sig_name, Event.releaseSig sig_name], clk0)
    | .ok st =>
      match stat_mean st.keygen_times with
      | .error e => (.error e, [Event.acquireSig sig_name, Event.releaseSig sig_name], st.clk)
      | .ok mean_keygen =>
        match stat_mean st.sign_times with
        | .error e => (.error e, [Event.acquireSig sig_name, Event.releaseSig sig_name], st.clk)
        | .ok mean_sign =>
          match stat_mean st.verify_times with
          | .error e => (.error e, [Event.acquireSig sig_name, Event.releaseSig sig_name], st.clk)
          | .ok mean_verify =>
            (.ok [("Algorithm", Val.s sig_name),
                  ("Type", Val.s "Signature"),
                  ("Public Key (bytes)", Val.n details.length_public_key),
                  ("Secret Key (bytes)", Val.n details.length_secret_key),
                  ("Ciphertext (bytes)", Val.s "N/A"),
                  ("Signature (bytes)", Val.n details.length_signature),
                  ("Keygen (ms)", Val.q mean_keygen),
                  ("Encaps/Sign (ms)", Val.q mean_sign),
                  ("Decaps/Verify (ms)", Val.q mean_verify)],
             [Event.acquireSig sig_name, Event.releaseSig sig_name], st.clk)
  else
    (.error (.mechanismNotEnabled sig_name), [], clk0)

/-- A benchmark target: algorithm name plus category. -/
structure Target where
  name : String
  cat : AlgCat
deriving DecidableEq, Repr

/-- The full configured target list: all KEMs first, then all
Signatures, in configuration order. -/
def TARGETS : List Target :=
  KEM_ALGORITHMS.map (fun a => ⟨a, AlgCat.kem⟩) ++
    SIGNATURE_ALGORITHMS.map (fun a => ⟨a, AlgCat.sig⟩)

/-- Dispatch to the category-appropriate benchmark function. -/
def benchTarget (env : OqsEnv) (t : Target) (num_iterations : Nat) (clk : Nat) :
    Except PyError ResultRecord × List Event × Nat :=
  match t.cat with
  | AlgCat.kem => benchmark_kem env t.name num_iterations clk
  | AlgCat.sig => benchmark_sig env t.name num_iterations clk

/-- Outcome of the two benchmark loops of main: either a fatal uncaught
exception (with the records completed before it and the targets never
reached), or the full record list. -/
inductive RunOut where
  | fatal (e : PyError) (doneRecords : List ResultRecord) (remaining : List Target)
  | finished (records : List ResultRecord)
deriving DecidableEq, Repr

/-- The two for loops of main over the configured targets: each target is
benchmarked with NUM_ITERATIONS iterations; a MechanismNotEnabledError is
caught and the target skipped; any other exception propagates and aborts
the run; a returned record is appended to all_results. -/
def runTargets (env : OqsEnv) : List Target → Nat → List ResultRecord → RunOut
  | [], _, acc => .finished acc
  | t :: ts, clk, acc =>
    match benchTarget env t NUM_ITERATIONS clk with
    | (.error (.mechanismNotEnabled _), _, _) => runTargets env ts clk acc
    | (.error e, _, _) => .fatal e acc ts
    | (.ok r, _, clk2) => runTargets env ts clk2 (acc ++ [r])

/-- Filesystem side effects of main. -/
inductive FsEffect where
  | makedirs (dir : String)
  | writeCsv (path : String) (header : List String) (rows : List (List Val))
deriving DecidableEq, Repr

/-- Observable outcome of main: an uncaught fatal exception, the
no-results early return, or the written report (CSV header, CSV rows, and
the console summary lines). -/
inductive MainOutcome where
  | fatal (e : PyError)
  | noResults
  | wrote (header : List String) (rows : List (List Val))
      (summary : List (List (Option Val)))
deriving DecidableEq, Repr

/-- One CSV data row produced by csv.DictWriter with the given fieldnames:
each field looked up in the record dict, with the empty-string restval for
a missing key.  (All records produced by this script carry exactly the
fieldname keys, so the extra-key ValueError path of DictWriter is
unreachable and not modelled.) -/
def csvRow (header : List String) (r : ResultRecord) : List Val :=
  header.map (fun k => (getField r k).getD (Val.s ""))

/-- One console summary line: the fields of the record that the summary
print accesses, in print order (numeric formatting abstracted away).  The
last field uses dict.get with the N/A default, as in the source. -/
def summaryLine (r : ResultRecord) : List (Option Val) :=
  [getField r "Algorithm", getField r "Type", getField r "Keygen (ms)",
   getField r "Encaps/Sign (ms)", getField r "Decaps/Verify (ms)",
   some ((getField r "Signature (bytes)").getD (Val.s "N/A"))]

/-- The main function of the script (named mainRun here because main is a
reserved entry-point name): run both loops, then either propagate a fatal
exception (no filesystem effect), return early on an empty record list (no
filesystem effect), or create the results directory, write the CSV with
the header taken from the keys of the first record, and print the
summary. -/
def mainRun (env : OqsEnv) : MainOutcome × List FsEffect :=
  match runTargets env TARGETS 0 [] with
  | .fatal e _ _ => (.fatal e, [])
  | .finished [] => (.noResults, [])
  | .finished (r :: rs) =>
    let header := r.map Prod.fst
    let rows := (r :: rs).map (csvRow header)
    (.wrote header rows ((r :: rs).map summaryLine),
     [FsEffect.makedirs RESULTS_DIR, FsEffect.writeCsv OUTPUT_CSV_FILE header rows])

/-- The fixed CSV column header from the specification, to compare with
the header the code derives from the keys of the first record. -/
def fixedHeader : List String :=
  ["Algorithm", "Type", "Public Key (bytes)", "Secret Key (bytes)",
   "Ciphertext (bytes)", "Signature (bytes)", "Keygen (ms)",
   "Encaps/Sign (ms)", "Decaps/Verify (ms)"]

/-- Whether the named target is enabled in the linked library build. -/
def targetEnabled (env : OqsEnv) (t : Target) : Bool :=
  match t.cat with
  | AlgCat.kem => env.kemEnabled t.name
  | AlgCat.sig => env.sigEnabled t.name

/-- The configured targets whose mechanism is available, in configuration
order. -/
def availableTargets (env : OqsEnv) : List Target :=
  TARGETS.filter (targetEnabled env)

/-- The pair of shared secrets compared by the sanity assert of iteration
i of the KEM loop, when every library call of that iteration succeeds:
the encapsulation side secret and the decapsulation side secret, obtained
by composing the library responses exactly as the loop does (encapsulate
against the fresh public key, decapsulate with the fresh secret key and
the resulting ciphertext). -/
def kemIterSecrets (env : OqsEnv) (kem_name : String) (i : Nat) :
    Option (Bytes × Bytes) :=
  match env.kemGenerateKeypair kem_name i with
  | .error _ => none
  | .ok public_key =>
    match env.kemExportSecretKey kem_name i with
    | .error _ => none
    | .ok secret_key =>
      match env.kemEncapSecret kem_name i public_key with
      | .error _ => none
      | .ok (ciphertext, shared_secret_client) =>
        match env.kemDecapSecret kem_name i secret_key ciphertext with
        | .error _ => none
        | .ok shared_secret_server =>
          some (shared_secret_client, shared_secret_server)

/-- Iteration i of the KEM loop completes: all library calls succeed and
the two shared secrets agree. -/
def kemIterOk (env : OqsEnv) (kem_name : String) (i : Nat) : Bool :=
  match kemIterSecrets env kem_name i with
  | some (a, b) => a == b
  | none => false

/-- The verification result of iteration i of the signature loop, when
every library call of that iteration succeeds: the freshly generated key
pair, the signature of the fixed message under the fresh secret key, and
the result of verifying that signature against the same message and the
fresh public key. -/
def sigIterVerify (env : OqsEnv) (sig_name : String) (i : Nat) : Option Bool :=
  match env.sigGenerateKeypair sig_name i with
  | .error _ => none
  | .ok public_key =>
    match env.sigExportSecretKey sig_name i with
    | .error _ => none
    | .ok secret_key =>
      match env.sigSign sig_name i message secret_key with
      | .error _ => none
      | .ok signature =>
        match env.sigVerify sig_name i message signature public_key with
        | .error _ => none
        | .ok is_valid => some is_valid

/-- Iteration i of the signature loop completes: all library calls
succeed and verification returns true. -/
def sigIterOk (env : OqsEnv) (sig_name : String) (i : Nat) : Bool :=
  sigIterVerify env sig_name i == some true

/-- The expected timing sequence of one step of a benchmark loop that
starts at perf_counter call count clk0: iteration j of the loop takes the
readings clk0 + 6j + off and clk0 + 6j + off + 1 around the step at
offset off (0 for keygen, 2 for the middle step, 4 for the last step) and
records the difference in milliseconds. -/
def timingSeq (env : OqsEnv) (clk0 off n : Nat) : List ℚ :=
  (List.range n).map
    (fun j => (env.clock (clk0 + 6 * j + off + 1) - env.clock (clk0 + 6 * j + off)) * 1000)

/-- Shape facts shared by every record either constructor can produce:
the keys are exactly the fixed header in order, and the category marker
determines which of the two mutually exclusive size fields holds the N/A
placeholder. -/
def RecordShape (r : ResultRecord) : Prop :=
  r.map Prod.fst = fixedHeader ∧
  ((getField r "Type" = some (Val.s "KEM") ∧
      getField r "Signature (bytes)" = some (Val.s "N/A")) ∨
   (getField r "Type" = some (Val.s "Signature") ∧
      getField r "Ciphertext (bytes)" = some (Val.s "N/A")))

/-- Handles still open after a sequence of lifecycle events, starting from
the given open list: an acquire pushes the handle, a release removes it. -/
def openHandles : List Event → List String → List String
  | [], acc => acc
  | Event.acquireKem a :: evs, acc => openHandles evs (acc ++ [a])
  | Event.releaseKem a :: evs, acc => openHandles evs (acc.erase a)
  | Event.acquireSig a :: evs, acc => openHandles evs (acc ++ [a])
  | Event.releaseSig a :: evs, acc => openHandles evs (acc.erase a)

/-- Concrete library model with every mechanism disabled; operations
answer with small constant values and the clock is identically zero. -/
def envAllOff : OqsEnv where
  kemEnabled := fun _ => false
  sigEnabled := fun _ => false
  kemDetails := fun _ => ⟨1, 2, 3⟩
  sigDetails := fun _ => ⟨1, 2, 3⟩
  kemGenerateKeypair := fun _ _ => .ok [1]
  kemExportSecretKey := fun _ _ => .ok [2]
  kemEncapSecret := fun _ _ _ => .ok ([3], [4])
  kemDecapSecret := fun _ _ _ _ => .ok [4]
  sigGenerateKeypair := fun _ _ => .ok [1]
  sigExportSecretKey := fun _ _ => .ok [2]
  sigSign := fun _ _ _ _ => .ok [5]
  sigVerify := fun _ _ _ _ _ => .ok true
  clock := fun _ => 0

/-- Concrete library model with Kyber768 and Dilithium3 enabled and all
operations succeeding consistently; the zero clock gives every step a
fixed known duration of 0 ms. -/
def envW : OqsEnv :=
  { envAllOff with
    kemEnabled := fun a => a = "Kyber768"
    sigEnabled := fun a => a = "Dilithium3" }

/-- Concrete library model whose decapsulation disagrees with its
encapsulation: the KEM sanity assert fails at iteration 0. -/
def envBadKem : OqsEnv :=
  { envW with kemDecapSecret := fun _ _ _ _ => .ok [9] }

/-- Concrete library model whose verification rejects: the signature
sanity assert fails at iteration 0.  The KEM list is disabled so the run
reaches the signature targets. -/
def envBadSig : OqsEnv :=
  { envW with
    kemEnabled := fun _ => false
    sigVerify := fun _ _ _ _ _ => .ok false }

/-- The record benchmark_kem produces for Kyber768 under envW. -/
def kemRecW : ResultRecord :=
  [("Algorithm", Val.s "Kyber768"), ("Type", Val.s "KEM"),
   ("Public Key (bytes)", Val.n 1), ("Secret Key (bytes)", Val.n 2),
   ("Ciphertext (bytes)", Val.n 3), ("Signature (bytes)", Val.s "N/A"),
   ("Keygen (ms)", Val.q 0), ("Encaps/Sign (ms)", Val.q 0),
   ("Decaps/Verify (ms)", Val.q 0)]

/-- The record benchmark_sig produces for Dilithium3 under envW. -/
def sigRecW : ResultRecord :=
  [("Algorithm", Val.s "Dilithium3"), ("Type", Val.s "Signature"),
   ("Public Key (bytes)", Val.n 1), ("Secret Key (bytes)", Val.n 2),
   ("Ciphertext (bytes)", Val.s "N/A"), ("Signature (bytes)", Val.n 3),
   ("Keygen (ms)", Val.q 0), ("Encaps/Sign (ms)", Val.q 0),
   ("Decaps/Verify (ms)", Val.q 0)]

theorem timingSeq_length (env : OqsEnv) (clk0 off n : Nat) :
    (timingSeq env clk0 off n).length = n := by
  simp [timingSeq]

theorem timingSeq_succ (env : OqsEnv) (clk0 off k : Nat) :
    timingSeq env clk0 off (k + 1) =
      ((env.clock (clk0 + off + 1) - env.clock (clk0 + off)) * 1000) ::
        timingSeq env (clk0 + 6) off k := by
  simp only [timingSeq, List.range_succ_eq_map, List.map_cons, List.map_map]
  rw [List.cons_eq_cons]
  refine ⟨by norm_num, ?_⟩
  refine List.map_congr_left fun j _ => ?_
  simp only [Function.comp_apply, Nat.succ_eq_add_one]
  have h1 : clk0 + 6 * (j + 1) + off = clk0 + 6 + 6 * j + off := by ring
  rw [h1]

theorem kemIteration_ok_elim (env : OqsEnv) (name : String) (i : Nat)
    (st st2 : KemLoopState) (h : kemIteration env name i st = .ok st2) :
    kemIterOk env name i = true ∧
      st2 = ⟨st.clk + 6,
        st.keygen_times ++ [(env.clock (st.clk + 1) - env.clock st.clk) * 1000],
        st.encaps_times ++ [(env.clock (st.clk + 3) - env.clock (st.clk + 2)) * 1000],
        st.decaps_times ++ [(env.clock (st.clk + 5) - env.clock (st.clk + 4)) * 1000]⟩ := by
  cases hg : env.kemGenerateKeypair name i with
  | error e => simp [kemIteration, hg] at h
  | ok pk =>
    cases hx : env.kemExportSecretKey name i with
    | error e => simp [kemIteration, hg, hx] at h
    | ok sk =>
      cases he : env.kemEncapSecret name i pk with
      | error e => simp [kemIteration, hg, hx, he] at h
      | ok p =>
        obtain ⟨ct, ssc⟩ := p
        cases hd : env.kemDecapSecret name i sk ct with
        | error e => simp [kemIteration, hg, hx, he, hd] at h
        | ok sss =>
          simp only [kemIteration, hg, hx, he, hd] at h
          by_cases hss : ssc = sss
          · rw [if_pos hss] at h
            refine ⟨?_, (Except.ok.inj h).symm⟩
            simp [kemIterOk, kemIterSecrets, hg, hx, he, hd, hss]
          · rw [if_neg hss] at h
            simp at h

theorem kemIteration_of_ok (env : OqsEnv) (name : String) (i : Nat)
    (st : KemLoopState) (h : kemIterOk env name i = true) :
    kemIteration env name i st = .ok ⟨st.clk + 6,
      st.keygen_times ++ [(env.clock (st.clk + 1) - env.clock st.clk) * 1000],
      st.encaps_times ++ [(env.clock (st.clk + 3) - env.clock (st.clk + 2)) * 1000],
      st.decaps_times ++ [(env.clock (st.clk + 5) - env.clock (st.clk + 4)) * 1000]⟩ := by
  unfold kemIterOk kemIterSecrets at h
  cases hg : env.kemGenerateKeypair name i with
  | error e => simp [hg] at h
  | ok pk =>
    simp only [hg] at h
    cases hx : env.kemExportSecretKey name i with
    | error e => simp [hx] at h
    | ok sk =>
      simp only [hx] at h
      cases he : env.kemEncapSecret name i pk with
      | error e => simp [he] at h
      | ok p =>
        obtain ⟨ct, ssc⟩ := p
        simp only [he] at h
        cases hd : env.kemDecapSecret name i sk ct with
        | error e => simp [hd] at h
        | ok sss =>
          simp only [hd, beq_iff_eq] at h
          simp [kemIteration, hg, hx, he, hd, h]

theorem kemIteration_assert (env : OqsEnv) (name : String) (i : Nat)
    (st : KemLoopState) (a b : Bytes)
    (hsec : kemIterSecrets env name i = some (a, b)) (hne : a ≠ b) :
    kemIteration env name i st = .error .assertionError := by
  unfold kemIterSecrets at hsec
  cases hg : env.kemGenerateKeypair name i with
  | error e => simp [hg] at hsec
  | ok pk =>
    simp only [hg] at hsec
    cases hx : env.kemExportSecretKey name i with
    | error e => simp [hx] at hsec
    | ok sk =>
      simp only [hx] at hsec
      cases he : env.kemEncapSecret name i pk with
      | error e => simp [he] at hsec
      | ok p =>
        obtain ⟨ct, ssc⟩ := p
        simp only [he] at hsec
        cases hd : env.kemDecapSecret name i sk ct with
        | error e => simp [hd] at hsec
        | ok sss =>
          simp only [hd, Option.some.injEq, Prod.mk.injEq] at hsec
          obtain ⟨rfl, rfl⟩ := hsec
          simp [kemIteration, hg, hx, he, hd, hne]

theorem kemIteration_error_shape (env : OqsEnv) (name : String) (i : Nat)
    (st : KemLoopState) (e : PyError)
    (h : kemIteration env name i st = .error e) :
    e = .assertionError ∨ ∃ c, e = .libError c := by
  cases hg : env.kemGenerateKeypair name i with
  | error e2 =>
    simp [kemIteration, hg] at h
    exact Or.inr ⟨e2, h.symm⟩
  | ok pk =>
    cases hx : env.kemExportSecretKey name i with
    | error e2 =>
      simp [kemIteration, hg, hx] at h
      exact Or.inr ⟨e2, h.symm⟩
    | ok sk =>
      cases he : env.kemEncapSecret name i pk with
      | error e2 =>
        simp [kemIteration, hg, hx, he] at h
        exact Or.inr ⟨e2, h.symm⟩
      | ok p =>
        obtain ⟨ct, ssc⟩ := p
        cases hd : env.kemDecapSecret name i sk ct with
        | error e2 =>
          simp [kemIteration, hg, hx, he, hd] at h
          exact Or.inr ⟨e2, h.symm⟩
        | ok sss =>
          simp only [kemIteration, hg, hx, he, hd] at h
          by_cases hss : ssc = sss
          · rw [if_pos hss] at h; simp at h
          · rw [if_neg hss] at h
            simp at h
            exact Or.inl h.symm

theorem runKemIters_ok_elim (env : OqsEnv) (name : String) (k : Nat) :
    ∀ (i : Nat) (st st2 : KemLoopState),
      runKemIters env name k i st = .ok st2 →
      (∀ j, j < k → kemIterOk env name (i + j) = true) ∧
      st2.clk = st.clk + 6 * k ∧
      st2.keygen_times = st.keygen_times ++ timingSeq env st.clk 0 k ∧
      st2.encaps_times = st.encaps_times ++ timingSeq env st.clk 2 k ∧
      st2.decaps_times = st.decaps_times ++ timingSeq env st.clk 4 k := by
  induction k with
  | zero =>
    intro i st st2 h
    simp only [runKemIters, Except.ok.injEq] at h
    subst h
    exact ⟨fun j hj => absurd hj (by omega), by omega, by simp [timingSeq],
      by simp [timingSeq], by simp [timingSeq]⟩
  | succ k ih =>
    intro i st st2 h
    unfold runKemIters at h
    cases hit : kemIteration env name i st with
    | error e => rw [hit] at h; simp at h
    | ok st1 =>
      rw [hit] at h
      obtain ⟨hok, hst⟩ := kemIteration_ok_elim env name i st st1 hit
      obtain ⟨hiter, hclk, hkg, hen, hde⟩ := ih (i + 1) st1 st2 h
      subst hst
      refine ⟨?_, ?_, ?_, ?_, ?_⟩
      · intro j hj
        match j with
        | 0 => simpa using hok
        | j + 1 =>
          have hx := hiter j (by omega)
          rw [show i + 1 + j = i + (j + 1) by omega] at hx
          exact hx
      · simp at hclk
        omega
      · rw [hkg, timingSeq_succ]
        simp [List.append_assoc]
      · rw [hen, timingSeq_succ]
        have h3 : st.clk + 2 + 1 = st.clk + 3 := by omega
        simp [List.append_assoc, h3]
      · rw [hde, timingSeq_succ]
        have h5 : st.clk + 4 + 1 = st.clk + 5 := by omega
        simp [List.append_assoc, h5]

theorem runKemIters_of_ok (env : OqsEnv) (name : String) (k : Nat) :
    ∀ (i : Nat) (st : KemLoopState),
      (∀ j, j < k → kemIterOk env name (i + j) = true) →
      ∃ st2, runKemIters env name k i st = .ok st2 := by
  induction k with
  | zero => intro i st _; exact ⟨st, rfl⟩
  | succ k ih =>
    intro i st hall
    have h0 : kemIterOk env name i = true := by simpa using hall 0 (by omega)
    unfold runKemIters
    rw [kemIteration_of_ok env name i st h0]
    apply ih (i + 1)
    intro j hj
    have hx := hall (j + 1) (by omega)
    rw [show i + (j + 1) = i + 1 + j by omega] at hx
    exact hx

theorem runKemIters_reach_assert (env : OqsEnv) (name : String) (j : Nat) :
    ∀ (k i : Nat) (st : KemLoopState) (a b : Bytes), j < k →
      (∀ m, m < j → kemIterOk env name (i + m) = true) →
      kemIterSecrets env name (i + j) = some (a, b) → a ≠ b →
      runKemIters env name k i st = .error .assertionError := by
  induction j with
  | zero =>
    intro k i st a b hk hpre hsec hne
    obtain ⟨k2, rfl⟩ : ∃ k2, k = k2 + 1 := ⟨k - 1, by omega⟩
    rw [Nat.add_zero] at hsec
    unfold runKemIters
    rw [kemIteration_assert env name i st a b hsec hne]
  | succ j ih =>
    intro k i st a b hk hpre hsec hne
    obtain ⟨k2, rfl⟩ : ∃ k2, k = k2 + 1 := ⟨k - 1, by omega⟩
    have h0 : kemIterOk env name i = true := by simpa using hpre 0 (by omega)
    unfold runKemIters
    rw [kemIteration_of_ok env name i st h0]
    refine ih k2 (i + 1) _ a b (by omega) ?_ ?_ hne
    · intro m hm
      have hx := hpre (m + 1) (by omega)
      rw [show i + (m + 1) = i + 1 + m by omega] at hx
      exact hx
    · rw [show i + 1 + j = i + (j + 1) by omega]
      exact hsec

theorem runKemIters_error_shape (env : OqsEnv) (name : String) (k : Nat) :
    ∀ (i : Nat) (st : KemLoopState) (e : PyError),
      runKemIters env name k i st = .error e →
      e = .assertionError ∨ ∃ c, e = .libError c := by
  induction k with
  | zero => intro i st e h; simp [runKemIters] at h
  | succ k ih =>
    intro i st e h
    unfold runKemIters at h
    cases hit : kemIteration env name i st with
    | error e2 =>
      rw [hit] at h
      simp only [Except.error.injEq] at h
      subst h
      exact kemIteration_error_shape env name i st e2 hit
    | ok st1 =>
      rw [hit] at h
      exact ih (i + 1) st1 e h

theorem stat_mean_ok_elim (xs : List ℚ) (m : ℚ) (h : stat_mean xs = .ok m) :
    xs.isEmpty = false ∧ m = xs.sum / (xs.length : ℚ) := by
  unfold stat_mean at h
  by_cases he : xs.isEmpty
  · simp [he] at h
  · rw [if_neg he] at h
    exact ⟨by simpa using he, (Except.ok.inj h).symm⟩

theorem stat_mean_error_shape (xs : List ℚ) (e : PyError)
    (h : stat_mean xs = .error e) : e = .libError 1 := by
  unfold stat_mean at h
  by_cases he : xs.isEmpty
  · rw [if_pos he] at h
    exact (Except.error.inj h).symm
  · rw [if_neg he] at h
    simp at h

theorem benchmark_kem_disabled (env : OqsEnv) (name : String) (n clk0 : Nat)
    (h : env.kemEnabled name = false) :
    benchmark_kem env name n clk0 = (.error (.mechanismNotEnabled name), [], clk0) := by
  simp [benchmark_kem, h]

theorem benchmark_kem_ok_elim (env : OqsEnv) (name : String) (n clk0 : Nat)
    (r : ResultRecord) (evs : List Event) (c2 : Nat)
    (h : benchmark_kem env name n clk0 = (.ok r, evs, c2)) :
    env.kemEnabled name = true ∧
    evs = [Event.acquireKem name, Event.releaseKem name] ∧
    ∃ st, runKemIters env name n 0 ⟨clk0, [], [], []⟩ = .ok st ∧
      st.keygen_times.isEmpty = false ∧ st.encaps_times.isEmpty = false ∧
      st.decaps_times.isEmpty = false ∧ c2 = st.clk ∧
      r = [("Algorithm", Val.s name), ("Type", Val.s "KEM"),
           ("Public Key (bytes)", Val.n (env.kemDetails name).length_public_key),
           ("Secret Key (bytes)", Val.n (env.kemDetails name).length_secret_key),
           ("Ciphertext (bytes)", Val.n (env.kemDetails name).length_ciphertext),
           ("Signature (bytes)", Val.s "N/A"),
           ("Keygen (ms)", Val.q (st.keygen_times.sum / (st.keygen_times.length : ℚ))),
           ("Encaps/Sign (ms)", Val.q (st.encaps_times.sum / (st.encaps_times.length : ℚ))),
           ("Decaps/Verify (ms)", Val.q (st.decaps_times.sum / (st.decaps_times.length : ℚ)))] := by
  by_cases hen : env.kemEnabled name
  case neg => simp [benchmark_kem, hen] at h
  case pos =>
    refine ⟨hen, ?_⟩
    simp only [benchmark_kem, hen, if_true] at h
    cases hrun : runKemIters env name n 0 ⟨clk0, [], [], []⟩ with
    | error e => simp [hrun] at h
    | ok st =>
      simp only [hrun] at h
      cases hm1 : stat_mean st.keygen_times with
      | error e => simp [hm1] at h
      | ok m1 =>
        simp only [hm1] at h
        cases hm2 : stat_mean st.encaps_times with
        | error e => simp [hm2] at h
        | ok m2 =>
          simp only [hm2] at h
          cases hm3 : stat_mean st.decaps_times with
          | error e => simp [hm3] at h
          | ok m3 =>
            simp only [hm3] at h
            obtain ⟨he1, hv1⟩ := stat_mean_ok_elim _ _ hm1
            obtain ⟨he2, hv2⟩ := stat_mean_ok_elim _ _ hm2
            obtain ⟨he3, hv3⟩ := stat_mean_ok_elim _ _ hm3
            simp only [Prod.mk.injEq, Except.ok.injEq] at h
            obtain ⟨hr, hevs, hclk⟩ := h
            subst hv1 hv2 hv3
            exact ⟨hevs.symm, st, rfl, he1, he2, he3, hclk.symm, hr.symm⟩

theorem benchmark_kem_error_shape (env : OqsEnv) (name : String) (n clk0 : Nat)
    (e : PyError) (evs : List Event) (c2 : Nat)
    (hen : env.kemEnabled name = true)
    (h : benchmark_kem env name n clk0 = (.error e, evs, c2)) :
    e = .assertionError ∨ ∃ c, e = .libError c := by
  simp only [benchmark_kem, hen, if_true] at h
  cases hrun : runKemIters env name n 0 ⟨clk0, [], [], []⟩ with
  | error e2 =>
    simp only [hrun, Prod.mk.injEq, Except.error.injEq] at h
    obtain ⟨rfl, -, -⟩ := h
    exact runKemIters_error_shape env name n 0 _ e2 hrun
  | ok st =>
    simp only [hrun] at h
    cases hm1 : stat_mean st.keygen_times with
    | error e2 =>
      simp only [hm1, Prod.mk.injEq, Except.error.injEq] at h
      obtain ⟨rfl, -, -⟩ := h
      exact Or.inr ⟨1, stat_mean_error_shape _ _ hm1⟩
    | ok m1 =>
      simp only [hm1] at h
      cases hm2 : stat_mean st.encaps_times with
      | error e2 =>
        simp only [hm2, Prod.mk.injEq, Except.error.injEq] at h
        obtain ⟨rfl, -, -⟩ := h
        exact Or.inr ⟨1, stat_mean_error_shape _ _ hm2⟩
      | ok m2 =>
        simp only [hm2] at h
        cases hm3 : stat_mean st.decaps_times with
        | error e2 =>
          simp only [hm3, Prod.mk.injEq, Except.error.injEq] at h
          obtain ⟨rfl, -, -⟩ := h
          exact Or.inr ⟨1, stat_mean_error_shape _ _ hm3⟩
        | ok m3 =>
          simp [hm3] at h

theorem benchmark_kem_events (env : OqsEnv) (name : String) (n clk0 : Nat) :
    (benchmark_kem env name n clk0).2.1 =
      (if env.kemEnabled name then
        [Event.acquireKem name, Event.releaseKem name] else []) := by
  by_cases hen : env.kemEnabled name
  · simp only [benchmark_kem, hen, if_true]
    cases hrun : runKemIters env name n 0 ⟨clk0, [], [], []⟩ with
    | error e => rfl
    | ok st =>
      simp only []
      cases hm1 : stat_mean st.keygen_times with
      | error e => simp [hm1]
      | ok m1 =>
        simp only [hm1]
        cases hm2 : stat_mean st.encaps_times with
        | error e => simp [hm2]
        | ok m2 =>
          simp only [hm2]
          cases hm3 : stat_mean st.decaps_times with
          | error e => simp [hm3]
          | ok m3 => simp [hm3]
  · simp [benchmark_kem, hen]

theorem sigIteration_ok_elim (env : OqsEnv) (name : String) (i : Nat)
    (st st2 : SigLoopState) (h : sigIteration env name i st = .ok st2) :
    sigIterOk env name i = true ∧
      st2 = ⟨st.clk + 6,
        st.keygen_times ++ [(env.clock (st.clk + 1) - env.clock st.clk) * 1000],
        st.sign_times ++ [(env.clock (st.clk + 3) - env.clock (st.clk + 2)) * 1000],
        st.verify_times ++ [(env.clock (st.clk + 5) - env.clock (st.clk + 4)) * 1000]⟩ := by
  cases hg : env.sigGenerateKeypair name i with
  | error e => simp [sigIteration, hg] at h
  | ok pk =>
    cases hx : env.sigExportSecretKey name i with
    | error e => simp [sigIteration, hg, hx] at h
    | ok sk =>
      cases hs : env.sigSign name i message sk with
      | error e => simp [sigIteration, hg, hx, hs] at h
      | ok sgn =>
        cases hb : env.sigVerify name i message sgn pk with
        | error e => simp [sigIteration, hg, hx, hs, hb] at h
        | ok b =>
          simp only [sigIteration, hg, hx, hs, hb] at h
          cases b with
          | false => simp at h
          | true =>
            rw [if_pos rfl] at h
            refine ⟨?_, (Except.ok.inj h).symm⟩
            simp [sigIterOk, sigIterVerify, hg, hx, hs, hb]

theorem sigIteration_of_ok (env : OqsEnv) (name : String) (i : Nat)
    (st : SigLoopState) (h : sigIterOk env name i = true) :
    sigIteration env name i st = .ok ⟨st.clk + 6,
      st.keygen_times ++ [(env.clock (st.clk + 1) - env.clock st.clk) * 1000],
      st.sign_times ++ [(env.clock (st.clk + 3) - env.clock (st.clk + 2)) * 1000],
      st.verify_times ++ [(env.clock (st.clk + 5) - env.clock (st.clk + 4)) * 1000]⟩ := by
  unfold sigIterOk at h
  rw [beq_iff_eq] at h
  unfold sigIterVerify at h
  cases hg : env.sigGenerateKeypair name i with
  | error e => simp [hg] at h
  | ok pk =>
    simp only [hg] at h
    cases hx : env.sigExportSecretKey name i with
    | error e => simp [hx] at h
    | ok sk =>
      simp only [hx] at h
      cases hs : env.sigSign name i message sk with
      | error e => simp [hs] at h
      | ok sgn =>
        simp only [hs] at h
        cases hb : env.sigVerify name i message sgn pk with
        | error e => simp [hb] at h
        | ok b =>
          simp only [hb, Option.some.injEq] at h
          subst h
          simp [sigIteration, hg, hx, hs, hb]

theorem sigIteration_assert (env : OqsEnv) (name : String) (i : Nat)
    (st : SigLoopState)
    (hver : sigIterVerify env name i = some false) :
    sigIteration env name i st = .error .assertionError := by
  unfold sigIterVerify at hver
  cases hg : env.sigGenerateKeypair name i with
  | error e => simp [hg] at hver
  | ok pk =>
    simp only [hg] at hver
    cases hx : env.sigExportSecretKey name i with
    | error e => simp [hx] at hver
    | ok sk =>
      simp only [hx] at hver
      cases hs : env.sigSign name i message sk with
      | error e => simp [hs] at hver
      | ok sgn =>
        simp only [hs] at hver
        cases hb : env.sigVerify name i message sgn pk with
        | error e => simp [hb] at hver
        | ok b =>
          simp only [hb, Option.some.injEq] at hver
          subst hver
          simp [sigIteration, hg, hx, hs, hb]

theorem sigIteration_error_shape (env : OqsEnv) (name : String) (i : Nat)
    (st : SigLoopState) (e : PyError)
    (h : sigIteration env name i st = .error e) :
    e = .assertionError ∨ ∃ c, e = .libError c := by
  cases hg : env.sigGenerateKeypair name i with
  | error e2 =>
    simp [sigIteration, hg] at h
    exact Or.inr ⟨e2, h.symm⟩
  | ok pk =>
    cases hx : env.sigExportSecretKey name i with
    | error e2 =>
      simp [sigIteration, hg, hx] at h
      exact Or.inr ⟨e2, h.symm⟩
    | ok sk =>
      cases hs : env.sigSign name i message sk with
      | error e2 =>
        simp [sigIteration, hg, hx, hs] at h
        exact Or.inr ⟨e2, h.symm⟩
      | ok sgn =>
        cases hb : env.sigVerify name i message sgn pk with
        | error e2 =>
          simp [sigIteration, hg, hx, hs, hb] at h
          exact Or.inr ⟨e2, h.symm⟩
        | ok b =>
          simp only [sigIteration, hg, hx, hs, hb] at h
          cases b with
          | true => rw [if_pos rfl] at h; simp at h
          | false =>
            simp only [Bool.false_eq_true, if_false, Except.error.injEq] at h
            exact Or.inl h.symm

theorem runSigIters_ok_elim (env : OqsEnv) (name : String) (k : Nat) :
    ∀ (i : Nat) (st st2 : SigLoopState),
      runSigIters env name k i st = .ok st2 →
      (∀ j, j < k → sigIterOk env name (i + j) = true) ∧
      st2.clk = st.clk + 6 * k ∧
      st2.keygen_times = st.keygen_times ++ timingSeq env st.clk 0 k ∧
      st2.sign_times = st.sign_times ++ timingSeq env st.clk 2 k ∧
      st2.verify_times = st.verify_times ++ timingSeq env st.clk 4 k := by
  induction k with
  | zero =>
    intro i st st2 h
    simp only [runSigIters, Except.ok.injEq] at h
    subst h
    exact ⟨fun j hj => absurd hj (by omega), by omega, by simp [timingSeq],
      by simp [timingSeq], by simp [timingSeq]⟩
  | succ k ih =>
    intro i st st2 h
    unfold runSigIters at h
    cases hit : sigIteration env name i st with
    | error e => rw [hit] at h; simp at h
    | ok st1 =>
      rw [hit] at h
      obtain ⟨hok, hst⟩ := sigIteration_ok_elim env name i st st1 hit
      obtain ⟨hiter, hclk, hkg, hsn, hvf⟩ := ih (i + 1) st1 st2 h
      subst hst
      refine ⟨?_, ?_, ?_, ?_, ?_⟩
      · intro j hj
        match j with
        | 0 => simpa using hok
        | j + 1 =>
          have hx := hiter j (by omega)
          rw [show i + 1 + j = i + (j + 1) by omega] at hx
          exact hx
      · simp at hclk
        omega
      · rw [hkg, timingSeq_succ]
        simp [List.append_assoc]
      · rw [hsn, timingSeq_succ]
        have h3 : st.clk + 2 + 1 = st.clk + 3 := by omega
        simp [List.append_assoc, h3]
      · rw [hvf, timingSeq_succ]
        have h5 : st.clk + 4 + 1 = st.clk + 5 := by omega
        simp [List.append_assoc, h5]

theorem runSigIters_of_ok (env : OqsEnv) (name : String) (k : Nat) :
    ∀ (i : Nat) (st : SigLoopState),
      (∀ j, j < k → sigIterOk env name (i + j) = true) →
      ∃ st2, runSigIters env name k i st = .ok st2 := by
  induction k with
  | zero => intro i st _; exact ⟨st, rfl⟩
  | succ k ih =>
    intro i st hall
    have h0 : sigIterOk env name i = true := by simpa using hall 0 (by omega)
    unfold runSigIters
    rw [sigIteration_of_ok env name i st h0]
    apply ih (i + 1)
    intro j hj
    have hx := hall (j + 1) (by omega)
    rw [show i + (j + 1) = i + 1 + j by omega] at hx
    exact hx

theorem runSigIters_reach_assert (env : OqsEnv) (name : String) (j : Nat) :
    ∀ (k i : Nat) (st : SigLoopState), j < k →
      (∀ m, m < j → sigIterOk env name (i + m) = true) →
      sigIterVerify env name (i + j) = some false →
      runSigIters env name k i st = .error .assertionError := by
  induction j with
  | zero =>
    intro k i st hk hpre hver
    obtain ⟨k2, rfl⟩ : ∃ k2, k = k2 + 1 := ⟨k - 1, by omega⟩
    rw [Nat.add_zero] at hver
    unfold runSigIters
    rw [sigIteration_assert env name i st hver]
  | succ j ih =>
    intro k i st hk hpre hver
    obtain ⟨k2, rfl⟩ : ∃ k2, k = k2 + 1 := ⟨k - 1, by omega⟩
    have h0 : sigIterOk env name i = true := by simpa using hpre 0 (by omega)
    unfold runSigIters
    rw [sigIteration_of_ok env name i st h0]
    refine ih k2 (i + 1) _ (by omega) ?_ ?_
    · intro m hm
      have hx := hpre (m + 1) (by omega)
      rw [show i + (m + 1) = i + 1 + m by omega] at hx
      exact hx
    · rw [show i + 1 + j = i + (j + 1) by omega]
      exact hver

theorem runSigIters_error_shape (env : OqsEnv) (name : String) (k : Nat) :
    ∀ (i : Nat) (st : SigLoopState) (e : PyError),
      runSigIters env name k i st = .error e →
      e = .assertionError ∨ ∃ c, e = .libError c := by
  induction k with
  | zero => intro i st e h; simp [runSigIters] at h
  | succ k ih =>
    intro i st e h
    unfold runSigIters at h
    cases hit : sigIteration env name i st with
    | error e2 =>
      rw [hit] at h
      simp only [Except.error.injEq] at h
      subst h
      exact sigIteration_error_shape env name i st e2 hit
    | ok st1 =>
      rw [hit] at h
      exact ih (i + 1) st1 e h

theorem benchmark_sig_disabled (env : OqsEnv) (name : String) (n clk0 : Nat)
    (h : env.sigEnabled name = false) :
    benchmark_sig env name n clk0 = (.error (.mechanismNotEnabled name), [], clk0) := by
  simp [benchmark_sig, h]

theorem benchmark_sig_ok_elim (env : OqsEnv) (name : String) (n clk0 : Nat)
    (r : ResultRecord) (evs : List Event) (c2 : Nat)
    (h : benchmark_sig env name n clk0 = (.ok r, evs, c2)) :
    env.sigEnabled name = true ∧
    evs = [Event.acquireSig name, Event.releaseSig name] ∧
    ∃ st, runSigIters env name n 0 ⟨clk0, [], [], []⟩ = .ok st ∧
      st.keygen_times.isEmpty = false ∧ st.sign_times.isEmpty = false ∧
      st.verify_times.isEmpty = false ∧ c2 = st.clk ∧
      r = [("Algorithm", Val.s name), ("Type", Val.s "Signature"),
           ("Public Key (bytes)", Val.n (env.sigDetails name).length_public_key),
           ("Secret Key (bytes)", Val.n (env.sigDetails name).length_secret_key),
           ("Ciphertext (bytes)", Val.s "N/A"),
           ("Signature (bytes)", Val.n (env.sigDetails name).length_signature),
           ("Keygen (ms)", Val.q (st.keygen_times.sum / (st.keygen_times.length : ℚ))),
           ("Encaps/Sign (ms)", Val.q (st.sign_times.sum / (st.sign_times.length : ℚ))),
           ("Decaps/Verify (ms)", Val.q (st.verify_times.sum / (st.verify_times.length : ℚ)))] := by
  by_cases hen : env.sigEnabled name
  case neg => simp [benchmark_sig, hen] at h
  case pos =>
    refine ⟨hen, ?_⟩
    simp only [benchmark_sig, hen, if_true] at h
    cases hrun : runSigIters env name n 0 ⟨clk0, [], [], []⟩ with
    | error e => simp [hrun] at h
    | ok st =>
      simp only [hrun] at h
      cases hm1 : stat_mean st.keygen_times with
      | error e => simp [hm1] at h
      | ok m1 =>
        simp only [hm1] at h
        cases hm2 : stat_mean st.sign_times with
        | error e => simp [hm2] at h
        | ok m2 =>
          simp only [hm2] at h
          cases hm3 : stat_mean st.verify_times with
          | error e => simp [hm3] at h
          | ok m3 =>
            simp only [hm3] at h
            obtain ⟨he1, hv1⟩ := stat_mean_ok_elim _ _ hm1
            obtain ⟨he2, hv2⟩ := stat_mean_ok_elim _ _ hm2
            obtain ⟨he3, hv3⟩ := stat_mean_ok_elim _ _ hm3
            simp only [Prod.mk.injEq, Except.ok.injEq] at h
            obtain ⟨hr, hevs, hclk⟩ := h
            subst hv1 hv2 hv3
            exact ⟨hevs.symm, st, rfl, he1, he2, he3, hclk.symm, hr.symm⟩

theorem benchmark_sig_error_shape (env : OqsEnv) (name : String) (n clk0 : Nat)
    (e : PyError) (evs : List Event) (c2 : Nat)
    (hen : env.sigEnabled name = true)
    (h : benchmark_sig env name n clk0 = (.error e, evs, c2)) :
    e = .assertionError ∨ ∃ c, e = .libError c := by
  simp only [benchmark_sig, hen, if_true] at h
  cases hrun : runSigIters env name n 0 ⟨clk0, [], [], []⟩ with
  | error e2 =>
    simp only [hrun, Prod.mk.injEq, Except.error.injEq] at h
    obtain ⟨rfl, -, -⟩ := h
    exact runSigIters_error_shape env name n 0 _ e2 hrun
  | ok st =>
    simp only [hrun] at h
    cases hm1 : stat_mean st.keygen_times with
    | error e2 =>
      simp only [hm1, Prod.mk.injEq, Except.error.injEq] at h
      obtain ⟨rfl, -, -⟩ := h
      exact Or.inr ⟨1, stat_mean_error_shape _ _ hm1⟩
    | ok m1 =>
      simp only [hm1] at h
      cases hm2 : stat_mean st.sign_times with
      | error e2 =>
        simp only [hm2, Prod.mk.injEq, Except.error.injEq] at h
        obtain ⟨rfl, -, -⟩ := h
        exact Or.inr ⟨1, stat_mean_error_shape _ _ hm2⟩
      | ok m2 =>
        simp only [hm2] at h
        cases hm3 : stat_mean st.verify_times with
        | error e2 =>
          simp only [hm3, Prod.mk.injEq, Except.error.injEq] at h
          obtain ⟨rfl, -, -⟩ := h
          exact Or.inr ⟨1, stat_mean_error_shape _ _ hm3⟩
        | ok m3 =>
          simp [hm3] at h

theorem benchmark_sig_events (env : OqsEnv) (name : String) (n clk0 : Nat) :
    (benchmark_sig env name n clk0).2.1 =
      (if env.sigEnabled name then
        [Event.acquireSig name, Event.releaseSig name] else []) := by
  by_cases hen : env.sigEnabled name
  · simp only [benchmark_sig, hen, if_true]
    cases hrun : runSigIters env name n 0 ⟨clk0, [], [], []⟩ with
    | error e => rfl
    | ok st =>
      simp only []
      cases hm1 : stat_mean st.keygen_times with
      | error e => simp [hm1]
      | ok m1 =>
        simp only [hm1]
        cases hm2 : stat_mean st.sign_times with
        | error e => simp [hm2]
        | ok m2 =>
          simp only [hm2]
          cases hm3 : stat_mean st.verify_times with
          | error e => simp [hm3]
          | ok m3 => simp [hm3]
  · simp [benchmark_sig, hen]

theorem benchTarget_disabled (env : OqsEnv) (t : Target) (n clk : Nat)
    (h : targetEnabled env t = false) :
    benchTarget env t n clk = (.error (.mechanismNotEnabled t.name), [], clk) := by
  obtain ⟨name, cat⟩ := t
  cases cat with
  | kem => exact benchmark_kem_disabled env name n clk (by simpa [targetEnabled] using h)
  | sig => exact benchmark_sig_disabled env name n clk (by simpa [targetEnabled] using h)

theorem benchTarget_no_mech (env : OqsEnv) (t : Target) (n clk : Nat)
    (a : String) (evs : List Event) (c2 : Nat)
    (hen : targetEnabled env t = true)
    (h : benchTarget env t n clk = (.error (.mechanismNotEnabled a), evs, c2)) :
    False := by
  obtain ⟨name, cat⟩ := t
  cases cat with
  | kem =>
    rcases benchmark_kem_error_shape env name n clk _ evs c2
        (by simpa [targetEnabled] using hen) h with h2 | ⟨c, h2⟩ <;> simp at h2
  | sig =>
    rcases benchmark_sig_error_shape env name n clk _ evs c2
        (by simpa [targetEnabled] using hen) h with h2 | ⟨c, h2⟩ <;> simp at h2

theorem benchTarget_ok_fields (env : OqsEnv) (t : Target) (n clk : Nat)
    (r : ResultRecord) (evs : List Event) (c2 : Nat)
    (h : benchTarget env t n clk = (.ok r, evs, c2)) :
    getField r "Algorithm" = some (Val.s t.name) ∧ RecordShape r := by
  obtain ⟨name, cat⟩ := t
  cases cat with
  | kem =>
    obtain ⟨-, -, st, -, -, -, -, -, hr⟩ := benchmark_kem_ok_elim env name n clk r evs c2 h
    subst hr
    refine ⟨by simp [getField], by simp [fixedHeader], Or.inl ⟨?_, ?_⟩⟩ <;> simp [getField]
  | sig =>
    obtain ⟨-, -, st, -, -, -, -, -, hr⟩ := benchmark_sig_ok_elim env name n clk r evs c2 h
    subst hr
    refine ⟨by simp [getField], by simp [fixedHeader], Or.inr ⟨?_, ?_⟩⟩ <;> simp [getField]

theorem runTargets_skip (env : OqsEnv) (t : Target) (ts : List Target)
    (clk : Nat) (acc : List ResultRecord) (h : targetEnabled env t = false) :
    runTargets env (t :: ts) clk acc = runTargets env ts clk acc := by
  conv_lhs => rw [runTargets]
  rw [benchTarget_disabled env t NUM_ITERATIONS clk h]

theorem runTargets_finished_elim (env : OqsEnv) :
    ∀ (ts : List Target) (clk : Nat) (acc l : List ResultRecord),
      runTargets env ts clk acc = .finished l →
      ∃ recs, l = acc ++ recs ∧
        recs.map (fun r => getField r "Algorithm") =
          (ts.filter (targetEnabled env)).map (fun t => some (Val.s t.name)) ∧
        ∀ r ∈ recs, RecordShape r := by
  intro ts
  induction ts with
  | nil =>
    intro clk acc l h
    simp only [runTargets, RunOut.finished.injEq] at h
    exact ⟨[], by simp [h], by simp, by simp⟩
  | cons t ts ih =>
    intro clk acc l h
    by_cases hen : targetEnabled env t
    case neg =>
      rw [runTargets_skip env t ts clk acc (by simpa using hen)] at h
      obtain ⟨recs, hl, hmap, hshape⟩ := ih clk acc l h
      refine ⟨recs, hl, ?_, hshape⟩
      rw [hmap, List.filter_cons_of_neg (by simpa using hen)]
    case pos =>
      unfold runTargets at h
      rcases hb : benchTarget env t NUM_ITERATIONS clk with ⟨res, evs, clk2⟩
      cases res with
      | error e =>
        cases e with
        | mechanismNotEnabled a =>
          exact absurd hb (fun hb2 => benchTarget_no_mech env t _ clk a evs clk2 hen hb2)
        | assertionError =>
          rw [hb] at h
          have h2 : RunOut.fatal PyError.assertionError acc ts = .finished l := h
          simp at h2
        | libError c =>
          rw [hb] at h
          have h2 : RunOut.fatal (PyError.libError c) acc ts = .finished l := h
          simp at h2
      | ok r =>
        rw [hb] at h
        have h2 : runTargets env ts clk2 (acc ++ [r]) = .finished l := h
        obtain ⟨recs, hl, hmap, hshape⟩ := ih clk2 (acc ++ [r]) l h2
        obtain ⟨halg, hsh⟩ := benchTarget_ok_fields env t _ clk r evs clk2 hb
        refine ⟨r :: recs, by simp [hl], ?_, ?_⟩
        · rw [List.filter_cons_of_pos hen]
          simp only [List.map_cons, hmap, halg]
        · intro r2 hr2
          rcases List.mem_cons.mp hr2 with hr2 | hr2
          · exact hr2 ▸ hsh
          · exact hshape r2 hr2

theorem runTargets_fatal_elim (env : OqsEnv) :
    ∀ (ts : List Target) (clk : Nat) (acc d : List ResultRecord)
      (e : PyError) (rem : List Target),
      runTargets env ts clk acc = .fatal e d rem →
      (∃ k, k < ts.length ∧ rem = ts.drop (k + 1)) ∧
      (e = .assertionError ∨ ∃ c, e = .libError c) := by
  intro ts
  induction ts with
  | nil => intro clk acc d e rem h; simp [runTargets] at h
  | cons t ts ih =>
    intro clk acc d e rem h
    unfold runTargets at h
    rcases hb : benchTarget env t NUM_ITERATIONS clk with ⟨res, evs, clk2⟩
    rw [hb] at h
    cases res with
    | error e2 =>
      cases e2 with
      | mechanismNotEnabled a =>
        obtain ⟨⟨k, hk, hrem⟩, hshape⟩ := ih clk acc d e rem h
        exact ⟨⟨k + 1, by simp; omega, by simpa using hrem⟩, hshape⟩
      | assertionError =>
        have h2 : RunOut.fatal PyError.assertionError acc ts = .fatal e d rem := h
        simp only [RunOut.fatal.injEq] at h2
        obtain ⟨rfl, -, rfl⟩ := h2
        exact ⟨⟨0, by simp, by simp⟩, Or.inl rfl⟩
      | libError c =>
        have h2 : RunOut.fatal (PyError.libError c) acc ts = .fatal e d rem := h
        simp only [RunOut.fatal.injEq] at h2
        obtain ⟨rfl, -, rfl⟩ := h2
        exact ⟨⟨0, by simp, by simp⟩, Or.inr ⟨c, rfl⟩⟩
    | ok r =>
      obtain ⟨⟨k, hk, hrem⟩, hshape⟩ := ih clk2 (acc ++ [r]) d e rem h
      exact ⟨⟨k + 1, by simp; omega, by simpa using hrem⟩, hshape⟩

theorem mainRun_fatal (env : OqsEnv) (e : PyError) (d : List ResultRecord)
    (rem : List Target) (h : runTargets env TARGETS 0 [] = .fatal e d rem) :
    mainRun env = (.fatal e, []) := by
  unfold mainRun
  rw [h]

theorem mainRun_empty (env : OqsEnv)
    (h : runTargets env TARGETS 0 [] = .finished []) :
    mainRun env = (.noResults, []) := by
  unfold mainRun
  rw [h]

theorem mainRun_wrote (env : OqsEnv) (r0 : ResultRecord) (rs : List ResultRecord)
    (h : runTargets env TARGETS 0 [] = .finished (r0 :: rs)) :
    mainRun env =
      (.wrote (r0.map Prod.fst) ((r0 :: rs).map (csvRow (r0.map Prod.fst)))
        ((r0 :: rs).map summaryLine),
       [FsEffect.makedirs RESULTS_DIR,
        FsEffect.writeCsv OUTPUT_CSV_FILE (r0.map Prod.fst)
          ((r0 :: rs).map (csvRow (r0.map Prod.fst)))]) := by
  unfold mainRun
  rw [h]

theorem runTargets_all_disabled (env : OqsEnv)
    (hk : ∀ a ∈ KEM_ALGORITHMS, env.kemEnabled a = false)
    (hs : ∀ a ∈ SIGNATURE_ALGORITHMS, env.sigEnabled a = false) :
    runTargets env TARGETS 0 [] = .finished [] := by
  have h1 : targetEnabled env ⟨"Kyber768", AlgCat.kem⟩ = false := by
    simpa [targetEnabled] using hk "Kyber768" (by simp [KEM_ALGORITHMS])
  have h2 : targetEnabled env ⟨"Dilithium3", AlgCat.sig⟩ = false := by
    simpa [targetEnabled] using hs "Dilithium3" (by simp [SIGNATURE_ALGORITHMS])
  have h3 : targetEnabled env ⟨"Falcon-512", AlgCat.sig⟩ = false := by
    simpa [targetEnabled] using hs "Falcon-512" (by simp [SIGNATURE_ALGORITHMS])
  have h4 : targetEnabled env ⟨"SPHINCS+-SHA2-128f-simple", AlgCat.sig⟩ = false := by
    simpa [targetEnabled] using hs "SPHINCS+-SHA2-128f-simple" (by simp [SIGNATURE_ALGORITHMS])
  show runTargets env
    [⟨"Kyber768", AlgCat.kem⟩, ⟨"Dilithium3", AlgCat.sig⟩,
     ⟨"Falcon-512", AlgCat.sig⟩, ⟨"SPHINCS+-SHA2-128f-simple", AlgCat.sig⟩] 0 []
    = .finished []
  rw [runTargets_skip _ _ _ _ _ h1, runTargets_skip _ _ _ _ _ h2,
      runTargets_skip _ _ _ _ _ h3, runTargets_skip _ _ _ _ _ h4]
  rfl

theorem rows_first_cells (l : List ResultRecord) (names : List String)
    (h : l.map (fun r => getField r "Algorithm") = names.map (fun a => some (Val.s a))) :
    (l.map (csvRow fixedHeader)).map (fun row => row.get? 0) =
      names.map (fun a => some (Val.s a)) := by
  induction l generalizing names with
  | nil =>
    cases names with
    | nil => simp
    | cons a as => simp at h
  | cons r l ih =>
    cases names with
    | nil => simp at h
    | cons a as =>
      simp only [List.map_cons, List.cons.injEq] at h
      obtain ⟨h1, h2⟩ := h
      simp only [List.map_cons, List.cons.injEq]
      exact ⟨by simp [csvRow, fixedHeader, h1], ih as h2⟩

theorem summary_first_cells (l : List ResultRecord) (names : List String)
    (h : l.map (fun r => getField r "Algorithm") = names.map (fun a => some (Val.s a))) :
    (l.map summaryLine).map (fun s => s.get? 0) =
      names.map (fun a => some (some (Val.s a))) := by
  induction l generalizing names with
  | nil =>
    cases names with
    | nil => simp
    | cons a as => simp at h
  | cons r l ih =>
    cases names with
    | nil => simp at h
    | cons a as =>
      simp only [List.map_cons, List.cons.injEq] at h
      obtain ⟨h1, h2⟩ := h
      simp only [List.map_cons, List.cons.injEq]
      exact ⟨by simp [summaryLine, h1], ih as h2⟩

theorem csvRow_shape (r : ResultRecord) (hsh : RecordShape r) :
    (csvRow fixedHeader r).length = 9 ∧
    ((csvRow fixedHeader r).get? 1 = some (Val.s "KEM") →
      (csvRow fixedHeader r).get? 5 = some (Val.s "N/A")) ∧
    ((csvRow fixedHeader r).get? 1 = some (Val.s "Signature") →
      (csvRow fixedHeader r).get? 4 = some (Val.s "N/A")) := by
  obtain ⟨hkeys, hdisj⟩ := hsh
  refine ⟨by simp [csvRow, fixedHeader], ?_, ?_⟩
  · intro h1
    rcases hdisj with ⟨ht, hna⟩ | ⟨ht, hna⟩
    · simp [csvRow, fixedHeader, hna]
    · simp [csvRow, fixedHeader, ht] at h1
  · intro h1
    rcases hdisj with ⟨ht, hna⟩ | ⟨ht, hna⟩
    · simp [csvRow, fixedHeader, ht] at h1
    · simp [csvRow, fixedHeader, hna]

/-- C1: for every KEM target and every iteration reached by its benchmark
loop, the shared secret returned by encapsulating against the freshly
generated public key equals the shared secret returned by decapsulating
with the freshly generated secret key and the resulting ciphertext; and
whenever the two values at a reachable iteration are unequal, the run
stops immediately with the uncaught AssertionError (never retried,
recovered or skipped). -/
theorem kem_shared_secret_agreement (env : OqsEnv) (name : String) (n clk0 : Nat) :
    (∀ r evs c2, benchmark_kem env name n clk0 = (.ok r, evs, c2) →
      ∀ i, i < n → ∀ p, kemIterSecrets env name i = some p → p.1 = p.2) ∧
    (∀ j a b, j < n → env.kemEnabled name = true →
      (∀ m, m < j → kemIterOk env name m = true) →
      kemIterSecrets env name j = some (a, b) → a ≠ b →
      (benchmark_kem env name n clk0).1 = .error PyError.assertionError) := by
  constructor
  · intro r evs c2 h i hi p hp
    obtain ⟨-, -, st, hrun, -⟩ := benchmark_kem_ok_elim env name n clk0 r evs c2 h
    have hok := (runKemIters_ok_elim env name n 0 _ st hrun).1 i hi
    rw [Nat.zero_add] at hok
    simp only [kemIterOk, hp] at hok
    obtain ⟨a, b⟩ := p
    simpa using hok
  · intro j a b hj hen hpre hsec hne
    have hfail := runKemIters_reach_assert env name j n 0 ⟨clk0, [], [], []⟩ a b hj
      (fun m hm => by simpa using hpre m hm) (by simpa using hsec) hne
    simp only [benchmark_kem, hen, if_true, hfail]

/-- C2: for every Signature target and every iteration reached by its
benchmark loop, the program signs the one fixed constant message (the
global byte-string constant, independent of iteration, key and algorithm)
and verifying that signature against the same message and the fresh
public key returns true; a verification returning false stops the run
with the uncaught AssertionError. -/
theorem sig_fixed_message_verification (env : OqsEnv) (name : String) (n clk0 : Nat) :
    (∀ r evs c2, benchmark_sig env name n clk0 = (.ok r, evs, c2) →
      ∀ i, i < n → sigIterVerify env name i = some true) ∧
    (∀ j, j < n → env.sigEnabled name = true →
      (∀ m, m < j → sigIterOk env name m = true) →
      sigIterVerify env name j = some false →
      (benchmark_sig env name n clk0).1 = .error PyError.assertionError) := by
  constructor
  · intro r evs c2 h i hi
    obtain ⟨-, -, st, hrun, -⟩ := benchmark_sig_ok_elim env name n clk0 r evs c2 h
    have hok := (runSigIters_ok_elim env name n 0 _ st hrun).1 i hi
    rw [Nat.zero_add] at hok
    simpa [sigIterOk] using hok
  · intro j hj hen hpre hver
    have hfail := runSigIters_reach_assert env name j n 0 ⟨clk0, [], [], []⟩ hj
      (fun m hm => by simpa using hpre m hm) (by simpa using hver)
    simp only [benchmark_sig, hen, if_true, hfail]

/-- C3: a configured target whose mechanism is not enabled is skipped and
the run continues, producing no record for it; the record list of a
completed run has exactly one entry per available target (its row count
equals the number of available targets), and an unavailable target never
aborts the run. -/
theorem unavailable_targets_skipped (env : OqsEnv) (l : List ResultRecord)
    (h : runTargets env TARGETS 0 [] = .finished l) :
    l.length = (availableTargets env).length ∧
    l.map (fun r => getField r "Algorithm") =
      (availableTargets env).map (fun t => some (Val.s t.name)) ∧
    ∀ t ts clk acc, targetEnabled env t = false →
      runTargets env (t :: ts) clk acc = runTargets env ts clk acc := by
  obtain ⟨recs, hl, hmap, -⟩ := runTargets_finished_elim env TARGETS 0 [] l h
  simp only [List.nil_append] at hl
  subst hl
  refine ⟨?_, ?_, fun t ts clk acc hdis => runTargets_skip env t ts clk acc hdis⟩
  · have h2 := congrArg List.length hmap
    simpa [availableTargets] using h2
  · simpa [availableTargets] using hmap

/-- C4: if any target fails with a correctness-assertion failure or any
library error other than mechanism-not-available, the whole run
terminates with that uncaught exception, no CSV file is written and no
directory created (the filesystem effect trace is empty, so records
completed for earlier targets are discarded), and only a prefix of the
configured targets was ever benchmarked (the remaining suffix is
untouched). -/
theorem fatal_error_aborts_run (env : OqsEnv) (e : PyError)
    (d : List ResultRecord) (rem : List Target)
    (h : runTargets env TARGETS 0 [] = .fatal e d rem) :
    mainRun env = (.fatal e, []) ∧
    (∃ k, k < TARGETS.length ∧ rem = TARGETS.drop (k + 1)) ∧
    (e = .assertionError ∨ ∃ c, e = .libError c) := by
  obtain ⟨hdrop, hshape⟩ := runTargets_fatal_elim env TARGETS 0 [] d e rem h
  exact ⟨mainRun_fatal env e d rem h, hdrop, hshape⟩

/-- C5: whenever at least one record is produced, the written CSV has
exactly the fixed nine-column header (taken from the keys of the first
record, which has that key list whichever category it belongs to), one
data row per record, the literal N/A string in the Signature column of
every KEM row and in the Ciphertext column of every Signature row. -/
theorem csv_header_and_na_placeholders (env : OqsEnv) (r0 : ResultRecord)
    (rs : List ResultRecord)
    (h : runTargets env TARGETS 0 [] = .finished (r0 :: rs)) :
    r0.map Prod.fst = fixedHeader ∧
    (mainRun env).1 =
      .wrote fixedHeader ((r0 :: rs).map (csvRow fixedHeader))
        ((r0 :: rs).map summaryLine) ∧
    ((r0 :: rs).map (csvRow fixedHeader)).length = (r0 :: rs).length ∧
    ∀ row ∈ (r0 :: rs).map (csvRow fixedHeader),
      row.length = 9 ∧
      (row.get? 1 = some (Val.s "KEM") → row.get? 5 = some (Val.s "N/A")) ∧
      (row.get? 1 = some (Val.s "Signature") → row.get? 4 = some (Val.s "N/A")) := by
  obtain ⟨recs, hl, -, hshape⟩ := runTargets_finished_elim env TARGETS 0 [] _ h
  simp only [List.nil_append] at hl
  have hsh : ∀ r ∈ r0 :: rs, RecordShape r := by
    intro r hr
    exact hshape r (hl ▸ hr)
  have hhdr : r0.map Prod.fst = fixedHeader := (hsh r0 (by simp)).1
  refine ⟨hhdr, ?_, by simp, ?_⟩
  · have hm := mainRun_wrote env r0 rs h
    rw [hm, hhdr]
  · intro row hrow
    obtain ⟨r, hrmem, hreq⟩ := List.mem_map.mp hrow
    exact hreq ▸ csvRow_shape r (hsh r hrmem)

/-- C6: for every target and iteration count, a benchmark that returns a
record accumulated exactly n timing entries per step, in iteration order
with none dropped (the lists equal the per-iteration clock differences in
order), and the three reported fields are the arithmetic means of those
sequences. -/
theorem timing_sequences_and_means (env : OqsEnv) (n clk0 : Nat) :
    (∀ name r evs c2, benchmark_kem env name n clk0 = (.ok r, evs, c2) →
      ∃ st, runKemIters env name n 0 ⟨clk0, [], [], []⟩ = .ok st ∧
        st.keygen_times = timingSeq env clk0 0 n ∧
        st.encaps_times = timingSeq env clk0 2 n ∧
        st.decaps_times = timingSeq env clk0 4 n ∧
        st.keygen_times.length = n ∧ st.encaps_times.length = n ∧
        st.decaps_times.length = n ∧
        getField r "Keygen (ms)" = some (Val.q (st.keygen_times.sum / (n : ℚ))) ∧
        getField r "Encaps/Sign (ms)" = some (Val.q (st.encaps_times.sum / (n : ℚ))) ∧
        getField r "Decaps/Verify (ms)" = some (Val.q (st.decaps_times.sum / (n : ℚ)))) ∧
    (∀ name r evs c2, benchmark_sig env name n clk0 = (.ok r, evs, c2) →
      ∃ st, runSigIters env name n 0 ⟨clk0, [], [], []⟩ = .ok st ∧
        st.keygen_times = timingSeq env clk0 0 n ∧
        st.sign_times = timingSeq env clk0 2 n ∧
        st.verify_times = timingSeq env clk0 4 n ∧
        st.keygen_times.length = n ∧ st.sign_times.length = n ∧
        st.verify_times.length = n ∧
        getField r "Keygen (ms)" = some (Val.q (st.keygen_times.sum / (n : ℚ))) ∧
        getField r "Encaps/Sign (ms)" = some (Val.q (st.sign_times.sum / (n : ℚ))) ∧
        getField r "Decaps/Verify (ms)" = some (Val.q (st.verify_times.sum / (n : ℚ)))) := by
  constructor
  · intro name r evs c2 h
    obtain ⟨-, -, st, hrun, -, -, -, -, hr⟩ :=
      benchmark_kem_ok_elim env name n clk0 r evs c2 h
    obtain ⟨-, -, hkg, hen2, hde⟩ := runKemIters_ok_elim env name n 0 _ st hrun
    simp only [List.nil_append] at hkg hen2 hde
    have hl1 : st.keygen_times.length = n := by rw [hkg, timingSeq_length]
    have hl2 : st.encaps_times.length = n := by rw [hen2, timingSeq_length]
    have hl3 : st.decaps_times.length = n := by rw [hde, timingSeq_length]
    subst hr
    refine ⟨st, hrun, hkg, hen2, hde, hl1, hl2, hl3, ?_, ?_, ?_⟩ <;>
      simp [getField, hl1, hl2, hl3]
  · intro name r evs c2 h
    obtain ⟨-, -, st, hrun, -, -, -, -, hr⟩ :=
      benchmark_sig_ok_elim env name n clk0 r evs c2 h
    obtain ⟨-, -, hkg, hsn, hvf⟩ := runSigIters_ok_elim env name n 0 _ st hrun
    simp only [List.nil_append] at hkg hsn hvf
    have hl1 : st.keygen_times.length = n := by rw [hkg, timingSeq_length]
    have hl2 : st.sign_times.length = n := by rw [hsn, timingSeq_length]
    have hl3 : st.verify_times.length = n := by rw [hvf, timingSeq_length]
    subst hr
    refine ⟨st, hrun, hkg, hsn, hvf, hl1, hl2, hl3, ?_, ?_, ?_⟩ <;>
      simp [getField, hl1, hl2, hl3]

/-- C7: a completed run holds one record per available target in exactly
the fixed configuration order (all KEMs in list order, then all
Signatures in list order), and this order is preserved unchanged in the
rows of the written CSV and in the console summary lines. -/
theorem report_order_preserved (env : OqsEnv) (l : List ResultRecord)
    (h : runTargets env TARGETS 0 [] = .finished l) :
    l.map (fun r => getField r "Algorithm") =
      (availableTargets env).map (fun t => some (Val.s t.name)) ∧
    ∀ r0 rs, l = r0 :: rs →
      (mainRun env).1 =
        .wrote fixedHeader (l.map (csvRow fixedHeader)) (l.map summaryLine) ∧
      (l.map (csvRow fixedHeader)).map (fun row => row.get? 0) =
        (availableTargets env).map (fun t => some (Val.s t.name)) ∧
      (l.map summaryLine).map (fun s => s.get? 0) =
        (availableTargets env).map (fun t => some (some (Val.s t.name))) := by
  obtain ⟨recs, hl, hmap, hshape⟩ := runTargets_finished_elim env TARGETS 0 [] l h
  simp only [List.nil_append] at hl
  subst hl
  have hmap2 : l.map (fun r => getField r "Algorithm") =
      (availableTargets env).map (fun t => some (Val.s t.name)) := by
    simpa [availableTargets] using hmap
  have hmap3 : l.map (fun r => getField r "Algorithm") =
      ((availableTargets env).map Target.name).map (fun a => some (Val.s a)) := by
    simpa [List.map_map, Function.comp] using hmap2
  refine ⟨hmap2, ?_⟩
  intro r0 rs hcons
  have h2 : runTargets env TARGETS 0 [] = .finished (r0 :: rs) := hcons ▸ h
  have hhdr : r0.map Prod.fst = fixedHeader := by
    have hsh := hshape r0 (by rw [hcons]; simp)
    exact hsh.1
  refine ⟨?_, ?_, ?_⟩
  · have hm := mainRun_wrote env r0 rs h2
    rw [hcons, hm, hhdr]
  · have hrows := rows_first_cells l _ hmap3
    simpa [List.map_map, Function.comp] using hrows
  · have hsum := summary_first_cells l _ hmap3
    simpa [List.map_map, Function.comp] using hsum

/-- C8: when every configured mechanism is unavailable, the run completes
with the no-results outcome: the record list is empty, no file is written
and no directory created, and no exception escapes. -/
theorem empty_run_no_output (env : OqsEnv)
    (hk : ∀ a ∈ KEM_ALGORITHMS, env.kemEnabled a = false)
    (hs : ∀ a ∈ SIGNATURE_ALGORITHMS, env.sigEnabled a = false) :
    runTargets env TARGETS 0 [] = .finished [] ∧
    mainRun env = (.noResults, []) := by
  have h := runTargets_all_disabled env hk hs
  exact ⟨h, mainRun_empty env h⟩

/-- C9: both benchmark functions release their algorithm handle on every
exit path of the with block: whenever the handle is acquired (the
mechanism is enabled) the event trace is exactly acquire-then-release,
whatever the outcome of the loop or of the averaging, and no handle
remains open after either function returns or raises. -/
theorem handle_released_every_path (env : OqsEnv) (name : String) (n clk0 : Nat) :
    (benchmark_kem env name n clk0).2.1 =
      (if env.kemEnabled name then
        [Event.acquireKem name, Event.releaseKem name] else []) ∧
    (benchmark_sig env name n clk0).2.1 =
      (if env.sigEnabled name then
        [Event.acquireSig name, Event.releaseSig name] else []) ∧
    openHandles (benchmark_kem env name n clk0).2.1 [] = [] ∧
    openHandles (benchmark_sig env name n clk0).2.1 [] = [] := by
  refine ⟨benchmark_kem_events env name n clk0, benchmark_sig_events env name n clk0,
    ?_, ?_⟩
  · rw [benchmark_kem_events]
    by_cases hen : env.kemEnabled name <;> simp [hen, openHandles]
  · rw [benchmark_sig_events]
    by_cases hen : env.sigEnabled name <;> simp [hen, openHandles]

/-- C10: a run that produced no record performs no filesystem side effect
at all: main returns right after reporting no results, before the
directory-creation step, so not even the output directory is created. -/
theorem empty_run_no_fs_effects (env : OqsEnv)
    (h : runTargets env TARGETS 0 [] = .finished []) :
    mainRun env = (.noResults, []) ∧
    FsEffect.makedirs RESULTS_DIR ∉ (mainRun env).2 := by
  have hm := mainRun_empty env h
  exact ⟨hm, by simp [hm]⟩


theorem kemIterOk_envW (i : Nat) : kemIterOk envW "Kyber768" i = true := rfl

theorem sigIterOk_envW (i : Nat) : sigIterOk envW "Dilithium3" i = true := rfl

theorem timingSeq_envW (clk0 off n : Nat) :
    timingSeq envW clk0 off n = List.replicate n 0 := by
  unfold timingSeq
  induction n with
  | zero => rfl
  | succ n ih =>
    rw [List.range_succ, List.map_append, ih, List.replicate_succ']
    simp [envW, envAllOff]

theorem stat_mean_replicate_zero (n : Nat) (hn : n ≠ 0) :
    stat_mean (List.replicate n 0) = .ok 0 := by
  unfold stat_mean
  rw [if_neg ?hne]
  case hne =>
    cases n with
    | zero => exact absurd rfl hn
    | succ n => simp [List.replicate]
  simp

theorem runKemIters_envW (n clk0 : Nat) :
    runKemIters envW "Kyber768" n 0 ⟨clk0, [], [], []⟩ =
      .ok ⟨clk0 + 6 * n, List.replicate n 0, List.replicate n 0, List.replicate n 0⟩ := by
  obtain ⟨st2, h⟩ := runKemIters_of_ok envW "Kyber768" n 0 ⟨clk0, [], [], []⟩
    (fun j _ => kemIterOk_envW (0 + j))
  obtain ⟨-, hclk, hkg, hen2, hde⟩ := runKemIters_ok_elim envW "Kyber768" n 0 _ st2 h
  simp only [List.nil_append, timingSeq_envW] at hclk hkg hen2 hde
  rw [h]
  rcases st2 with ⟨c, kg, en, de⟩
  simp only at hclk hkg hen2 hde
  rw [hclk, hkg, hen2, hde]

theorem runSigIters_envW (n clk0 : Nat) :
    runSigIters envW "Dilithium3" n 0 ⟨clk0, [], [], []⟩ =
      .ok ⟨clk0 + 6 * n, List.replicate n 0, List.replicate n 0, List.replicate n 0⟩ := by
  obtain ⟨st2, h⟩ := runSigIters_of_ok envW "Dilithium3" n 0 ⟨clk0, [], [], []⟩
    (fun j _ => sigIterOk_envW (0 + j))
  obtain ⟨-, hclk, hkg, hsn, hvf⟩ := runSigIters_ok_elim envW "Dilithium3" n 0 _ st2 h
  simp only [List.nil_append, timingSeq_envW] at hclk hkg hsn hvf
  rw [h]
  rcases st2 with ⟨c, kg, sn, vf⟩
  simp only at hclk hkg hsn hvf
  rw [hclk, hkg, hsn, hvf]

theorem benchmark_kem_envW (n clk0 : Nat) (hn : n ≠ 0) :
    benchmark_kem envW "Kyber768" n clk0 =
      (.ok kemRecW, [Event.acquireKem "Kyber768", Event.releaseKem "Kyber768"],
       clk0 + 6 * n) := by
  have hen : envW.kemEnabled "Kyber768" = true := rfl
  simp only [benchmark_kem, hen, if_true, runKemIters_envW n clk0,
    stat_mean_replicate_zero n hn]
  rfl

theorem benchmark_sig_envW (n clk0 : Nat) (hn : n ≠ 0) :
    benchmark_sig envW "Dilithium3" n clk0 =
      (.ok sigRecW, [Event.acquireSig "Dilithium3", Event.releaseSig "Dilithium3"],
       clk0 + 6 * n) := by
  have hen : envW.sigEnabled "Dilithium3" = true := rfl
  simp only [benchmark_sig, hen, if_true, runSigIters_envW n clk0,
    stat_mean_replicate_zero n hn]
  rfl

theorem runTargets_envW :
    runTargets envW TARGETS 0 [] = .finished [kemRecW, sigRecW] := by
  have h1 : benchTarget envW ⟨"Kyber768", AlgCat.kem⟩ NUM_ITERATIONS 0 =
      (.ok kemRecW, [Event.acquireKem "Kyber768", Event.releaseKem "Kyber768"], 600) :=
    benchmark_kem_envW NUM_ITERATIONS 0 (by decide)
  have h2 : benchTarget envW ⟨"Dilithium3", AlgCat.sig⟩ NUM_ITERATIONS 600 =
      (.ok sigRecW, [Event.acquireSig "Dilithium3", Event.releaseSig "Dilithium3"], 1200) :=
    benchmark_sig_envW NUM_ITERATIONS 600 (by decide)
  have h3 : benchTarget envW ⟨"Falcon-512", AlgCat.sig⟩ NUM_ITERATIONS 1200 =
      (.error (.mechanismNotEnabled "Falcon-512"), [], 1200) :=
    benchmark_sig_disabled envW "Falcon-512" NUM_ITERATIONS 1200 rfl
  have h4 : benchTarget envW ⟨"SPHINCS+-SHA2-128f-simple", AlgCat.sig⟩ NUM_ITERATIONS 1200 =
      (.error (.mechanismNotEnabled "SPHINCS+-SHA2-128f-simple"), [], 1200) :=
    benchmark_sig_disabled envW "SPHINCS+-SHA2-128f-simple" NUM_ITERATIONS 1200 rfl
  show runTargets envW [⟨"Kyber768", AlgCat.kem⟩, ⟨"Dilithium3", AlgCat.sig⟩,
    ⟨"Falcon-512", AlgCat.sig⟩, ⟨"SPHINCS+-SHA2-128f-simple", AlgCat.sig⟩] 0 []
    = .finished [kemRecW, sigRecW]
  conv_lhs => rw [runTargets]
  rw [h1]
  show runTargets envW [⟨"Dilithium3", AlgCat.sig⟩, ⟨"Falcon-512", AlgCat.sig⟩,
    ⟨"SPHINCS+-SHA2-128f-simple", AlgCat.sig⟩] 600 [kemRecW] = .finished [kemRecW, sigRecW]
  conv_lhs => rw [runTargets]
  rw [h2]
  show runTargets envW [⟨"Falcon-512", AlgCat.sig⟩,
    ⟨"SPHINCS+-SHA2-128f-simple", AlgCat.sig⟩] 1200 [kemRecW, sigRecW]
    = .finished [kemRecW, sigRecW]
  conv_lhs => rw [runTargets]
  rw [h3]
  show runTargets envW [⟨"SPHINCS+-SHA2-128f-simple", AlgCat.sig⟩] 1200 [kemRecW, sigRecW]
    = .finished [kemRecW, sigRecW]
  conv_lhs => rw [runTargets]
  rw [h4]
  show runTargets envW [] 1200 [kemRecW, sigRecW] = .finished [kemRecW, sigRecW]
  rfl

theorem runTargets_envBadKem :
    runTargets envBadKem TARGETS 0 [] =
      .fatal PyError.assertionError []
        [⟨"Dilithium3", AlgCat.sig⟩, ⟨"Falcon-512", AlgCat.sig⟩,
         ⟨"SPHINCS+-SHA2-128f-simple", AlgCat.sig⟩] := by
  have hfail : runKemIters envBadKem "Kyber768" NUM_ITERATIONS 0 ⟨0, [], [], []⟩ =
      .error .assertionError :=
    runKemIters_reach_assert envBadKem "Kyber768" 0 NUM_ITERATIONS 0 ⟨0, [], [], []⟩
      [4] [9] (by decide) (fun m hm => absurd hm (Nat.not_lt_zero m)) rfl (by decide)
  have hen : envBadKem.kemEnabled "Kyber768" = true := rfl
  have hb : benchTarget envBadKem ⟨"Kyber768", AlgCat.kem⟩ NUM_ITERATIONS 0 =
      (.error PyError.assertionError,
       [Event.acquireKem "Kyber768", Event.releaseKem "Kyber768"], 0) := by
    show benchmark_kem envBadKem "Kyber768" NUM_ITERATIONS 0 = _
    simp only [benchmark_kem, hen, if_true, hfail]
  show runTargets envBadKem [⟨"Kyber768", AlgCat.kem⟩, ⟨"Dilithium3", AlgCat.sig⟩,
    ⟨"Falcon-512", AlgCat.sig⟩, ⟨"SPHINCS+-SHA2-128f-simple", AlgCat.sig⟩] 0 [] = _
  conv_lhs => rw [runTargets]
  rw [hb]

set_option maxRecDepth 10000

/-- Witness for C1 at a concrete library model: under envW the secrets of
iteration 0 agree, and under envBadKem the benchmark aborts with the
AssertionError. -/
theorem kem_shared_secret_agreement_witness :
    (([4], [4]) : Bytes × Bytes).1 = (([4], [4]) : Bytes × Bytes).2 ∧
    (benchmark_kem envBadKem "Kyber768" 1 0).1 = .error PyError.assertionError :=
  ⟨(kem_shared_secret_agreement envW "Kyber768" 1 0).1 kemRecW
      [Event.acquireKem "Kyber768", Event.releaseKem "Kyber768"] (0 + 6 * 1)
      (benchmark_kem_envW 1 0 (by decide)) 0 (by decide) ([4], [4]) rfl,
   (kem_shared_secret_agreement envBadKem "Kyber768" 1 0).2 0 [4] [9] (by decide)
      rfl (fun m hm => absurd hm (Nat.not_lt_zero m)) rfl (by decide)⟩

/-- Witness for C2 at a concrete library model: under envW iteration 0
verifies the fixed message, and under envBadSig the benchmark aborts with
the AssertionError. -/
theorem sig_fixed_message_verification_witness :
    sigIterVerify envW "Dilithium3" 0 = some true ∧
    (benchmark_sig envBadSig "Dilithium3" 1 0).1 = .error PyError.assertionError :=
  ⟨(sig_fixed_message_verification envW "Dilithium3" 1 0).1 sigRecW
      [Event.acquireSig "Dilithium3", Event.releaseSig "Dilithium3"] (0 + 6 * 1)
      (benchmark_sig_envW 1 0 (by decide)) 0 (by decide),
   (sig_fixed_message_verification envBadSig "Dilithium3" 1 0).2 0 (by decide)
      rfl (fun m hm => absurd hm (Nat.not_lt_zero m)) rfl⟩

/-- Witness for C3: under envW, where two of the four configured targets
are enabled, the completed run holds exactly two records. -/
theorem unavailable_targets_skipped_witness :
    ([kemRecW, sigRecW] : List ResultRecord).length = (availableTargets envW).length :=
  (unavailable_targets_skipped envW [kemRecW, sigRecW] runTargets_envW).1

/-- Witness for C4: under envBadKem the first target fails its assert,
main propagates the AssertionError and performs no filesystem effect. -/
theorem fatal_error_aborts_run_witness :
    mainRun envBadKem = (.fatal PyError.assertionError, []) :=
  (fatal_error_aborts_run envBadKem PyError.assertionError []
    [⟨"Dilithium3", AlgCat.sig⟩, ⟨"Falcon-512", AlgCat.sig⟩,
     ⟨"SPHINCS+-SHA2-128f-simple", AlgCat.sig⟩] runTargets_envBadKem).1

/-- Witness for C5: under envW main writes the fixed header with one row
per record. -/
theorem csv_header_and_na_placeholders_witness :
    (mainRun envW).1 =
      .wrote fixedHeader (([kemRecW, sigRecW] : List ResultRecord).map (csvRow fixedHeader))
        (([kemRecW, sigRecW] : List ResultRecord).map summaryLine) :=
  (csv_header_and_na_placeholders envW kemRecW [sigRecW] runTargets_envW).2.1

/-- Witness for C6 at one iteration: both benchmarks record exactly one
timing entry per step, in order, and report its mean. -/
theorem timing_sequences_and_means_witness :
    (∃ st, runKemIters envW "Kyber768" 1 0 ⟨0, [], [], []⟩ = .ok st ∧
      st.keygen_times = timingSeq envW 0 0 1 ∧
      st.encaps_times = timingSeq envW 0 2 1 ∧
      st.decaps_times = timingSeq envW 0 4 1 ∧
      st.keygen_times.length = 1 ∧ st.encaps_times.length = 1 ∧
      st.decaps_times.length = 1 ∧
      getField kemRecW "Keygen (ms)" = some (Val.q (st.keygen_times.sum / (1 : ℚ))) ∧
      getField kemRecW "Encaps/Sign (ms)" = some (Val.q (st.encaps_times.sum / (1 : ℚ))) ∧
      getField kemRecW "Decaps/Verify (ms)" = some (Val.q (st.decaps_times.sum / (1 : ℚ)))) ∧
    (∃ st, runSigIters envW "Dilithium3" 1 0 ⟨0, [], [], []⟩ = .ok st ∧
      st.keygen_times = timingSeq envW 0 0 1 ∧
      st.sign_times = timingSeq envW 0 2 1 ∧
      st.verify_times = timingSeq envW 0 4 1 ∧
      st.keygen_times.length = 1 ∧ st.sign_times.length = 1 ∧
      st.verify_times.length = 1 ∧
      getField sigRecW "Keygen (ms)" = some (Val.q (st.keygen_times.sum / (1 : ℚ))) ∧
      getField sigRecW "Encaps/Sign (ms)" = some (Val.q (st.sign_times.sum / (1 : ℚ))) ∧
      getField sigRecW "Decaps/Verify (ms)" = some (Val.q (st.verify_times.sum / (1 : ℚ)))) :=
  ⟨(timing_sequences_and_means envW 1 0).1 "Kyber768" kemRecW
      [Event.acquireKem "Kyber768", Event.releaseKem "Kyber768"] (0 + 6 * 1)
      (benchmark_kem_envW 1 0 (by decide)),
   (timing_sequences_and_means envW 1 0).2 "Dilithium3" sigRecW
      [Event.acquireSig "Dilithium3", Event.releaseSig "Dilithium3"] (0 + 6 * 1)
      (benchmark_sig_envW 1 0 (by decide))⟩

/-- Witness for C7: under envW the first CSV cell of each row lists the
available targets in configuration order. -/
theorem report_order_preserved_witness :
    (([kemRecW, sigRecW] : List ResultRecord).map (csvRow fixedHeader)).map
        (fun row => row.get? 0) =
      (availableTargets envW).map (fun t => some (Val.s t.name)) :=
  ((report_order_preserved envW [kemRecW, sigRecW] runTargets_envW).2
    kemRecW [sigRecW] rfl).2.1

/-- Witness for C8: with every mechanism disabled, main reports no
results and performs no filesystem effect. -/
theorem empty_run_no_output_witness :
    mainRun envAllOff = (.noResults, []) :=
  (empty_run_no_output envAllOff (by decide) (by decide)).2

/-- Witness for C10: with an empty record list the output directory is
never created. -/
theorem empty_run_no_fs_effects_witness :
    FsEffect.makedirs RESULTS_DIR ∉ (mainRun envAllOff).2 :=
  (empty_run_no_fs_effects envAllOff (by decide)).2
